import Mathlib

/-!
Verification of the rsp2 driver core against its specification.

The definitions below are shallow embeddings of the Rust sources:

* `src/tasks/cmd/relaxation.rs`        — the EV-loop finite state machine
* `src/structure/core/coords.rs` and
  `src/util/array-types/methods_m.rs`  — coordinate conversions and the
                                         3x3 matrix inverse
* `src/minimize/src/exact_ls.rs`       — the exact linesearch (bracketing,
                                         bisection, mirroring) and the
                                         golden-section minimizer
* `src/tasks/cmd/acoustic_search.rs`   — the acoustic mode classifier
* `src/tasks/phonopy/cmd.rs`           — the child-process driver

Machine floating point (`f64`) is embedded as exact rational arithmetic `ℚ`.
The two places where behaviour genuinely depends on IEEE-754 rounding are
abstracted as explicit oracle parameters:

* `mirrorOk : ℚ → Bool` stands for the IEEE-754 test `2.0 * x0 - x0 == x0`
  performed by `check_mirroring_assumption`;
* `fmid : ℚ → ℚ → ℚ` stands for the IEEE-754 computation `0.5 * (lo + hi)`
  performed inside `bisect` (in exact arithmetic the midpoint of two
  distinct numbers is always strictly between them; under rounding it can
  collapse onto an endpoint, which is the termination condition).

Loops of the Rust sources whose termination depends on floating point are
embedded with an explicit fuel parameter; exhausting the fuel returns `none`.
-/

namespace Rsp2

/-! ## EV-loop finite state machine (src/tasks/cmd/relaxation.rs) -/

/-- Embedding of `cfg::EvLoop` (src/tasks/config/lib.rs): the `u32` counters
are embedded as `ℕ` (the loop exits long before a `u32` could wrap for the
configurations reachable here). -/
structure EvLoopConfig where
  min_positive_iter : ℕ
  max_iter : ℕ
  fail : Bool
deriving DecidableEq

/-- Embedding of `EvLoopFsm` (relaxation.rs, lines 160-164). -/
structure EvLoopFsm where
  config : EvLoopConfig
  iteration : ℕ
  all_ok_count : ℕ
deriving DecidableEq

/-- Embedding of `EvLoopStatus` (relaxation.rs, lines 166-170).
`ItsBadGuys` is the status the spec calls *Exhausted*. -/
inductive EvLoopStatus where
  | KeepGoing : EvLoopStatus
  | Done : EvLoopStatus
  | ItsBadGuys : String → EvLoopStatus
deriving DecidableEq

/-- Embedding of `EvLoopFsm::new` (relaxation.rs, lines 176-181). -/
def EvLoopFsm.new (config : EvLoopConfig) : EvLoopFsm :=
  ⟨config, 1, 0⟩

/-- Embedding of `EvLoopFsm::step` (relaxation.rs, lines 183-208).
The returned `Bool` records whether the `warn!` call in the
not-failing exhausted branch was executed. -/
def EvLoopFsm.step (fsm : EvLoopFsm) (did : Bool) : EvLoopFsm × EvLoopStatus × Bool :=
  let iteration := fsm.iteration + 1
  match did with
  | true =>
      let fsm2 : EvLoopFsm := ⟨fsm.config, iteration, 0⟩
      if iteration > fsm.config.max_iter then
        if fsm.config.fail then
          (fsm2, EvLoopStatus.ItsBadGuys "Too many relaxation steps!", false)
        else
          (fsm2, EvLoopStatus.Done, true)
      else
        (fsm2, EvLoopStatus.KeepGoing, false)
  | false =>
      let fsm2 : EvLoopFsm := ⟨fsm.config, iteration, fsm.all_ok_count + 1⟩
      if fsm.all_ok_count + 1 ≥ fsm.config.min_positive_iter then
        (fsm2, EvLoopStatus.Done, false)
      else
        (fsm2, EvLoopStatus.KeepGoing, false)

/-! ## Geometry core: 3-vectors, 3x3 matrices, coordinate conversions
(src/util/array-types/methods_m.rs and src/structure/core/coords.rs) -/

/-- Embedding of `V3<f64>` (a length-3 array), components as exact rationals. -/
structure V3 where
  x0 : ℚ
  x1 : ℚ
  x2 : ℚ
deriving DecidableEq

/-- Embedding of `M33<f64>`: a matrix stored as three row vectors, exactly
as in the row-centric formalism of `rsp2-array-types`. -/
structure M33 where
  r0 : V3
  r1 : V3
  r2 : V3
deriving DecidableEq

/-- Modelled from the spec: the row-vector-times-matrix product `v * m` of
`rsp2-array-types` (whose operator impl is outside this tree).  The library
documents a row-based formalism, and the in-tree test
`coords.rs::tests::multiplication_order` pins this orientation down:
the result is the linear combination of the rows of `m` by the components
of `v`. -/
def mulV3M33 (v : V3) (m : M33) : V3 :=
  ⟨v.x0 * m.r0.x0 + v.x1 * m.r1.x0 + v.x2 * m.r2.x0,
   v.x0 * m.r0.x1 + v.x1 * m.r1.x1 + v.x2 * m.r2.x1,
   v.x0 * m.r0.x2 + v.x1 * m.r1.x2 + v.x2 * m.r2.x2⟩

/-- Embedding of `M33::det` (methods_m.rs, `impl Det for M33`). -/
def M33.det (m : M33) : ℚ :=
  m.r0.x0 * m.r1.x1 * m.r2.x2
  + m.r0.x1 * m.r1.x2 * m.r2.x0
  + m.r0.x2 * m.r1.x0 * m.r2.x1
  - m.r0.x0 * m.r1.x2 * m.r2.x1
  - m.r0.x1 * m.r1.x0 * m.r2.x2
  - m.r0.x2 * m.r1.x1 * m.r2.x0

/-- Embedding of the cofactor matrix computed inside `M33::inv`
(methods_m.rs, `impl Inv for M33`):
`cofactors[r][c] = m[(r+1)%3][(c+1)%3] * m[(r+2)%3][(c+2)%3]
                 - m[(r+1)%3][(c+2)%3] * m[(r+2)%3][(c+1)%3]`. -/
def M33.cofactors (m : M33) : M33 :=
  ⟨⟨m.r1.x1 * m.r2.x2 - m.r1.x2 * m.r2.x1,
    m.r1.x2 * m.r2.x0 - m.r1.x0 * m.r2.x2,
    m.r1.x0 * m.r2.x1 - m.r1.x1 * m.r2.x0⟩,
   ⟨m.r2.x1 * m.r0.x2 - m.r2.x2 * m.r0.x1,
    m.r2.x2 * m.r0.x0 - m.r2.x0 * m.r0.x2,
    m.r2.x0 * m.r0.x1 - m.r2.x1 * m.r0.x0⟩,
   ⟨m.r0.x1 * m.r1.x2 - m.r0.x2 * m.r1.x1,
    m.r0.x2 * m.r1.x0 - m.r0.x0 * m.r1.x2,
    m.r0.x0 * m.r1.x1 - m.r0.x1 * m.r1.x0⟩⟩

/-- Embedding of `M33::inv` (methods_m.rs): `inv[r][c] = rdet * cofactors[c][r]`
where `rdet` is the reciprocal of `self[0].dot(&cofactors[0])`. -/
def M33.inv (m : M33) : M33 :=
  let cof := m.cofactors
  let det := m.r0.x0 * cof.r0.x0 + m.r0.x1 * cof.r0.x1 + m.r0.x2 * cof.r0.x2
  let rdet := 1 / det
  ⟨⟨rdet * cof.r0.x0, rdet * cof.r1.x0, rdet * cof.r2.x0⟩,
   ⟨rdet * cof.r0.x1, rdet * cof.r1.x1, rdet * cof.r2.x1⟩,
   ⟨rdet * cof.r0.x2, rdet * cof.r1.x2, rdet * cof.r2.x2⟩⟩

/-- Modelled from the spec: the `Lattice` type (its own module is outside this
tree).  It is a 3x3 real matrix of row lattice vectors carrying a derived
inverse; `inverse_matrix` is the matrix inverse of `matrix` (spec: the inverse
satisfies `M * Minv = I`), computed by the in-tree `M33::inv`. -/
structure Lattice where
  matrix : M33

/-- Modelled from the spec: `Lattice::inverse_matrix`. -/
def Lattice.inverse_matrix (l : Lattice) : M33 :=
  l.matrix.inv

/-- Embedding of `dot_n3_33` (coords.rs, line 105). -/
def dot_n3_33 (c : List V3) (m : M33) : List V3 :=
  c.map (fun v => mulV3M33 v m)

/-- Embedding of `CoordsKind` (coords.rs, lines 13-16). -/
inductive CoordsKind where
  | Carts : List V3 → CoordsKind
  | Fracs : List V3 → CoordsKind
deriving DecidableEq

/-- Embedding of `CoordsKind::into_carts` (coords.rs, lines 67-71). -/
def CoordsKind.into_carts (c : CoordsKind) (lattice : Lattice) : List V3 :=
  match c with
  | CoordsKind.Carts v => v
  | CoordsKind.Fracs v => dot_n3_33 v lattice.matrix

/-- Embedding of `CoordsKind::into_fracs` (coords.rs, lines 73-77). -/
def CoordsKind.into_fracs (c : CoordsKind) (lattice : Lattice) : List V3 :=
  match c with
  | CoordsKind.Carts v => dot_n3_33 v lattice.inverse_matrix
  | CoordsKind.Fracs v => v

/-- Componentwise closeness of two 3-vectors within `tol`. -/
def V3.close (tol : ℚ) (a b : V3) : Prop :=
  |a.x0 - b.x0| ≤ tol ∧ |a.x1 - b.x1| ≤ tol ∧ |a.x2 - b.x2| ≤ tol

lemma mul_mul_inv_cancel (m : M33) (hdet : m.det ≠ 0) (v : V3) :
    mulV3M33 (mulV3M33 v m) m.inv = v := by
  obtain ⟨⟨a, b, c⟩, ⟨d, e, f⟩, ⟨g, h, i⟩⟩ := m
  obtain ⟨p, q, r⟩ := v
  simp only [M33.det] at hdet
  have h2 : a * (e * i - f * h) + b * (f * g - d * i) + c * (d * h - e * g) ≠ 0 := by
    intro hz
    exact hdet (by linear_combination hz)
  simp only [mulV3M33, M33.inv, M33.cofactors, V3.mk.injEq]
  refine ⟨?_, ?_, ?_⟩ <;> (field_simp; ring)

lemma mul_inv_mul_cancel (m : M33) (hdet : m.det ≠ 0) (v : V3) :
    mulV3M33 (mulV3M33 v m.inv) m = v := by
  obtain ⟨⟨a, b, c⟩, ⟨d, e, f⟩, ⟨g, h, i⟩⟩ := m
  obtain ⟨p, q, r⟩ := v
  simp only [M33.det] at hdet
  have h2 : a * (e * i - f * h) + b * (f * g - d * i) + c * (d * h - e * g) ≠ 0 := by
    intro hz
    exact hdet (by linear_combination hz)
  simp only [mulV3M33, M33.inv, M33.cofactors, V3.mk.injEq]
  refine ⟨?_, ?_, ?_⟩ <;> (field_simp; ring)

lemma frac_cart_frac_eq (l : Lattice) (c : List V3) (hdet : l.matrix.det ≠ 0) :
    (CoordsKind.Carts ((CoordsKind.Fracs c).into_carts l)).into_fracs l = c := by
  simp only [CoordsKind.into_carts, CoordsKind.into_fracs, Lattice.inverse_matrix,
    dot_n3_33, List.map_map]
  have hcomp : ((fun v => mulV3M33 v l.matrix.inv) ∘ (fun v => mulV3M33 v l.matrix)) = id :=
    funext fun v => mul_mul_inv_cancel l.matrix hdet v
  rw [hcomp, List.map_id]

lemma cart_frac_cart_eq (l : Lattice) (c : List V3) (hdet : l.matrix.det ≠ 0) :
    (CoordsKind.Fracs ((CoordsKind.Carts c).into_fracs l)).into_carts l = c := by
  simp only [CoordsKind.into_carts, CoordsKind.into_fracs, Lattice.inverse_matrix,
    dot_n3_33, List.map_map]
  have hcomp : ((fun v => mulV3M33 v l.matrix) ∘ (fun v => mulV3M33 v l.matrix.inv)) = id :=
    funext fun v => mul_inv_mul_cancel l.matrix hdet v
  rw [hcomp, List.map_id]

/-! ## Exact linesearch (src/minimize/src/exact_ls.rs)

The user callback has type `ℚ → Except E ℚ`; the internal computation uses
`Except (Sum E LsErr)` mirroring the source `Result<_, Result<E, Error>>`
(`Sum.inl` = the callback error, `Sum.inr` = an internal numerical error),
and `nestErr` at the end mirrors `nest_err`.

The `is_finite` guards of the source (which raise `FunctionOutput`) are
vacuous in the exact-rational embedding, where every value is finite, so the
`FunctionOutput` variant is never produced here.  The `assert!` statements of
`find_initial` and `bisect` are debug-style assertions whose conditions are
proved below as invariants; they are not embedded as failure paths. -/

/-- Embedding of `ErrorKind` of exact_ls.rs (lines 5-22). -/
inductive LsErr where
  | BadBound : ℚ → LsErr
  | GsBadValue : (ℚ × ℚ) → ℚ → LsErr
  | NoMinimum : LsErr
  | FunctionOutput : ℚ → LsErr
deriving DecidableEq

/-- Embedding of `SlopeBound` (exact_ls.rs, line 32). -/
structure SlopeBound where
  alpha : ℚ
  slope : ℚ
deriving DecidableEq

/-- Embedding of `ValueBound` (exact_ls.rs, line 30). -/
structure ValueBound where
  alpha : ℚ
  value : ℚ
deriving DecidableEq

/-- Embedding of `nest_err` (exact_ls.rs, lines 219-227). -/
def nestErr {E A : Type} : Except (Sum E LsErr) A → Except LsErr (Except E A)
  | Except.ok x => Except.ok (Except.ok x)
  | Except.error (Sum.inl e) => Except.ok (Except.error e)
  | Except.error (Sum.inr e) => Except.error e

/-- Embedding of the early-wrapping closure of `linesearch`
(exact_ls.rs, lines 72-77): tag the requested abscissa onto the slope. -/
def wrapSlope {E : Type} (f : ℚ → Except E ℚ) : ℚ → Except (Sum E LsErr) SlopeBound :=
  fun alpha =>
    match f alpha with
    | Except.error e => Except.error (Sum.inl e)
    | Except.ok s => Except.ok ⟨alpha, s⟩

/-- Embedding of the mirroring rewrap of `linesearch` (exact_ls.rs, lines
88-92): probe at `2 * center - alpha` and negate the returned slope. -/
def mirrorCompute {E : Type} (compute : ℚ → Except (Sum E LsErr) SlopeBound)
    (center : ℚ) : ℚ → Except (Sum E LsErr) SlopeBound :=
  fun alpha =>
    match compute (2 * center - alpha) with
    | Except.error e => Except.error e
    | Except.ok sb => Except.ok ⟨alpha, -sb.slope⟩

/-- Embedding of `find_initial` (exact_ls.rs, lines 104-117), with fuel for
the interval-doubling loop (`.ok none` = fuel exhausted).  The
`ensure!(new_alpha.is_finite())` guard of the source cannot fire over `ℚ`. -/
def findInitial {E : Type} (compute : ℚ → Except (Sum E LsErr) SlopeBound) :
    ℕ → SlopeBound → SlopeBound → Except (Sum E LsErr) (Option (SlopeBound × SlopeBound))
  | 0, a, b =>
      if b.slope < 0 then Except.ok none else Except.ok (some (a, b))
  | n + 1, a, b =>
      if b.slope < 0 then
        match compute (b.alpha + (b.alpha - a.alpha)) with
        | Except.error e => Except.error e
        | Except.ok b2 => findInitial compute n a b2
      else Except.ok (some (a, b))

/-- One iteration of the `bisect` loop (exact_ls.rs, lines 125-142).
`fmid` abstracts the floating-point midpoint `0.5 * (lo.alpha + hi.alpha)`.
`Sum.inl lo` = the loop returns `lo`; `Sum.inr` = the next interval. -/
def bisectStep {E : Type} (fmid : ℚ → ℚ → ℚ)
    (compute : ℚ → Except (Sum E LsErr) SlopeBound)
    (s : SlopeBound × SlopeBound) :
    Except (Sum E LsErr) (Sum SlopeBound (SlopeBound × SlopeBound)) :=
  let lo := s.1
  let hi := s.2
  let alpha := fmid lo.alpha hi.alpha
  if lo.alpha < alpha ∧ alpha < hi.alpha then
    match compute alpha with
    | Except.error e => Except.error e
    | Except.ok bound =>
        if bound.slope ≥ 0 then Except.ok (Sum.inr (lo, bound))
        else Except.ok (Sum.inr (bound, hi))
  else Except.ok (Sum.inl lo)

/-- Embedding of `bisect` (exact_ls.rs, lines 119-143) as iterated
`bisectStep` with fuel (`.ok none` = fuel exhausted). -/
def bisect {E : Type} (fmid : ℚ → ℚ → ℚ)
    (compute : ℚ → Except (Sum E LsErr) SlopeBound) :
    ℕ → SlopeBound × SlopeBound → Except (Sum E LsErr) (Option SlopeBound)
  | 0, _ => Except.ok none
  | n + 1, s =>
      match bisectStep fmid compute s with
      | Except.error e => Except.error e
      | Except.ok (Sum.inl b) => Except.ok (some b)
      | Except.ok (Sum.inr s2) => bisect fmid compute n s2

/-- The state reached after `n` completed iterations of the `bisect` loop
(`none` if the loop stopped, failed, or returned before then). -/
def bisectStates {E : Type} (fmid : ℚ → ℚ → ℚ)
    (compute : ℚ → Except (Sum E LsErr) SlopeBound) :
    ℕ → SlopeBound × SlopeBound → Option (SlopeBound × SlopeBound)
  | 0, s => some s
  | n + 1, s =>
      match bisectStep fmid compute s with
      | Except.ok (Sum.inr s2) => bisectStates fmid compute n s2
      | _ => none

/-- The part of `linesearch` shared by the mirrored and unmirrored paths
(exact_ls.rs, lines 95-100): probe the second point, bracket, bisect. -/
def searchCore {E : Type} (fmid : ℚ → ℚ → ℚ) (fuel : ℕ)
    (compute : ℚ → Except (Sum E LsErr) SlopeBound)
    (a : SlopeBound) (second : ℚ) : Except (Sum E LsErr) (Option SlopeBound) :=
  match compute second with
  | Except.error e => Except.error e
  | Except.ok b =>
      match findInitial compute fuel a b with
      | Except.error e => Except.error e
      | Except.ok none => Except.ok none
      | Except.ok (some s) => bisect fmid compute fuel s

/-- Embedding of `linesearch` (exact_ls.rs, lines 61-102).
`mirrorOk` abstracts the IEEE-754 test `2.0 * x0 - x0 == x0` of
`check_mirroring_assumption` (lines 42-59); when it reports `false`
the search fails with `BadBound` exactly as in the source. -/
def linesearch {E : Type} (fmid : ℚ → ℚ → ℚ) (mirrorOk : ℚ → Bool) (fuel : ℕ)
    (from_ initial_step : ℚ) (f : ℚ → Except E ℚ) :
    Except LsErr (Except E (Option SlopeBound)) :=
  let compute := wrapSlope f
  nestErr
    (match compute from_ with
     | Except.error e => Except.error e
     | Except.ok a =>
         if 0 < a.slope then
           if mirrorOk a.alpha then
             searchCore fmid fuel (mirrorCompute compute a.alpha)
               ⟨a.alpha, -a.slope⟩ (from_ + initial_step)
           else Except.error (Sum.inr (LsErr.BadBound a.alpha))
         else searchCore fmid fuel compute a (from_ + initial_step))

/-- Embedding of the early-wrapping closure of `golden`
(exact_ls.rs, lines 165-170). -/
def wrapValue {E : Type} (f : ℚ → Except E ℚ) : ℚ → Except (Sum E LsErr) ValueBound :=
  fun alpha =>
    match f alpha with
    | Except.error e => Except.error (Sum.inl e)
    | Except.ok v => Except.ok ⟨alpha, v⟩

/-- Embedding of `get_mid_xs` (exact_ls.rs, lines 173-176).  `phi` is the
f64 value of `(1.0 + 5f64.sqrt()) / 2.0`, kept as a parameter because the
exact golden ratio is irrational. -/
def getMidXs (phi a d : ℚ) : ℚ × ℚ :=
  let dist := (d - a) / (1 + phi)
  (a + dist, d - dist)

/-- Embedding of the main loop of `golden` (exact_ls.rs, lines 190-211),
with fuel (`.ok none` = fuel exhausted).  The state is the triple
`(a, b, d)` with `b` the interior point.  The unused `history` vector of
the source is not tracked. -/
def goldenLoop {E : Type} (phi : ℚ)
    (compute : ℚ → Except (Sum E LsErr) ValueBound) :
    ℕ → ValueBound × ValueBound × ValueBound → Except (Sum E LsErr) (Option ℚ)
  | 0, _ => Except.ok none
  | n + 1, (a, b, d) =>
      if b.value > min a.value d.value then Except.ok (some b.alpha)
      else
        let xs := getMidXs phi a.alpha d.alpha
        let b2 : ValueBound := ⟨xs.1, b.value⟩
        match compute xs.2 with
        | Except.error e => Except.error e
        | Except.ok c =>
            if b2.value < c.value then goldenLoop phi compute n (c, b2, a)
            else goldenLoop phi compute n (b2, c, d)

/-- Embedding of `golden` (exact_ls.rs, lines 154-216). -/
def golden {E : Type} (phi : ℚ) (fuel : ℕ) (interval : ℚ × ℚ)
    (f : ℚ → Except E ℚ) : Except LsErr (Except E (Option ℚ)) :=
  let compute := wrapValue f
  nestErr
    (match compute interval.1 with
     | Except.error e => Except.error e
     | Except.ok a =>
         match compute interval.2 with
         | Except.error e => Except.error e
         | Except.ok d =>
             match compute (getMidXs phi a.alpha d.alpha).1 with
             | Except.error e => Except.error e
             | Except.ok b => goldenLoop phi compute fuel (a, b, d))

/-! ## Acoustic mode classifier (src/tasks/cmd/acoustic_search.rs)

The classifier consumes, per eigenmode, quantities produced by collaborators
that live outside this tree (the `rsp2_slice_math` vector helpers, the
eigenvector basis, and the potential oracle).  Those are modelled:

* each mode is abstracted by its eigenvalue, its `acousticness()` (spec:
  squared inner product with the unit translation subspace), and the two
  raw finite-difference gradient changes
  `d_grad_l = grad_0 - grad_l` and `d_grad_r = grad_r - grad_0`
  computed by the source from the potential oracle (lines 135-141);
* `sqrtQ : ℚ → ℚ` abstracts the f64 square root used by the Euclidean
  norm inside `vnormalize`. -/

/-- Embedding of `ModeKind` (acoustic_search.rs, lines 20-42). -/
inductive ModeKind where
  | Translational : ModeKind
  | Rotational : ModeKind
  | Imaginary : ModeKind
  | Vibrational : ModeKind
deriving DecidableEq

/-- Abstraction of one eigenmode as consumed by `perform_acoustic_search`. -/
structure Mode where
  eigenvalue : ℚ
  acousticness : ℚ
  dGradL : List ℚ
  dGradR : List ℚ
deriving DecidableEq

instance : Inhabited Mode := ⟨⟨0, 0, [], []⟩⟩

/-- Modelled from the spec: `vdot` of `rsp2_slice_math` (outside this tree),
the Euclidean inner product of two coordinate slices. -/
def vdot (u v : List ℚ) : ℚ :=
  (List.zipWith (fun a b => a * b) u v).sum

/-- Modelled from the spec: `vnormalize` of `rsp2_slice_math` (outside this
tree): divide by the Euclidean norm `sqrt(v . v)`, reporting `BadNorm`
(embedded as `Except.error ()`) when that norm is zero. -/
def vnormalize (sqrtQ : ℚ → ℚ) (v : List ℚ) : Except Unit (List ℚ) :=
  let n := sqrtQ (vdot v v)
  if n = 0 then Except.error () else Except.ok (v.map (fun x => x / n))

/-- Embedding of the normalization fallback loop (acoustic_search.rs, lines
148-156): on `BadNorm`, keep the unnormalized vector. -/
def normalizeOrRaw (sqrtQ : ℚ → ℚ) (v : List ℚ) : List ℚ :=
  match vnormalize sqrtQ v with
  | Except.error _ => v
  | Except.ok w => w

/-- Embedding of the dot-product classification match (acoustic_search.rs,
lines 158-172).  `none` is the `panic!("bad unit vector dot")` branch;
the `Bool` records whether the ambiguous-mode `warn!` fired. -/
def classifyDot (rotational_fdot_threshold imaginary_fdot_threshold dot : ℚ) :
    Option (ModeKind × Bool) :=
  if dot < -(1001/1000) ∨ (1001/1000) < dot then none
  else if dot ≤ -rotational_fdot_threshold then some (ModeKind.Rotational, false)
  else if imaginary_fdot_threshold ≤ dot then some (ModeKind.Imaginary, false)
  else some (ModeKind.Imaginary, true)

/-- Embedding of the per-mode body of the negative-eigenvalue loop
(acoustic_search.rs, lines 129-172): normalize the two gradient changes
(falling back to the raw vectors) and classify their dot product. -/
def classifyNegativeMode (sqrtQ : ℚ → ℚ)
    (rotational_fdot_threshold imaginary_fdot_threshold : ℚ) (m : Mode) :
    Option (ModeKind × Bool) :=
  classifyDot rotational_fdot_threshold imaginary_fdot_threshold
    (vdot (normalizeOrRaw sqrtQ m.dGradL) (normalizeOrRaw sqrtQ m.dGradR))

/-- Failure modes of `perform_acoustic_search`: the `ensure!` about more
than three translational modes, the `panic!("bad unit vector dot")`, and
the `expect` that every index was accounted for. -/
inductive AcErr where
  | tooManyTranslational : AcErr
  | badDot : AcErr
  | unaccounted : AcErr
deriving DecidableEq

/-- Run `f` on `start, start+1, ...` for `n` steps, collecting the results
and short-circuiting on the first error (the embedding of an indexed loop
with fallible body). -/
def collectFrom {E B : Type} (f : ℕ → Except E B) : ℕ → ℕ → Except E (List B)
  | _, 0 => Except.ok []
  | i, n + 1 =>
      match f i with
      | Except.error e => Except.error e
      | Except.ok x =>
          match collectFrom f (i + 1) n with
          | Except.error e => Except.error e
          | Except.ok xs => Except.ok (x :: xs)

/-- Run `f` on `0, ..., n-1`, collecting results, first error wins. -/
def collect {E B : Type} (f : ℕ → Except E B) (n : ℕ) : Except E (List B) :=
  collectFrom f 0 n

/-- Embedding of `zero_index` (acoustic_search.rs, line 92): index of the
first non-negative eigenvalue, or the number of modes. -/
def zeroIndexOf (modes : List Mode) : ℕ :=
  modes.findIdx (fun m => decide (0 ≤ m.eigenvalue))

/-- Embedding of `stop_index` (acoustic_search.rs, line 100): index of the
first eigenvalue at least 10, or the number of modes. -/
def stopIndexOf (modes : List Mode) : ℕ :=
  modes.findIdx (fun m => decide (10 ≤ m.eigenvalue))

/-- The per-mode translational test of the first block (acoustic_search.rs,
lines 103-108): the mode is scanned (index below `stop_index`) and its
acousticness is at least 0.95. -/
def isTranslationalAt (modes : List Mode) (i : ℕ) : Bool :=
  decide (i < stopIndexOf modes) && decide (95/100 ≤ (modes.getD i default).acousticness)

/-- The `t_end` cursor after the first block (acoustic_search.rs, lines
102-108): one past the last translational mode, starting from `zero_index`. -/
def tEndOf (modes : List Mode) : ℕ :=
  (List.range (stopIndexOf modes)).foldl
    (fun acc i => if isTranslationalAt modes i then i + 1 else acc)
    (zeroIndexOf modes)

/-- The `kinds` vector right after the translational scan, before the
truncate/resize (acoustic_search.rs, lines 103-108). -/
def kindsScan (modes : List Mode) : List (Option ModeKind) :=
  (List.range modes.length).map
    (fun i => if isTranslationalAt modes i then some ModeKind.Translational else none)

/-- The number of modes marked translational (the quantity checked by the
`ensure!` at acoustic_search.rs, lines 111-113). -/
def transCount (modes : List Mode) : ℕ :=
  ((kindsScan modes).filter (fun k => decide (k = some ModeKind.Translational))).length

/-- The `kinds` vector after `truncate(t_end)` and
`resize(len, Vibrational)` (acoustic_search.rs, lines 116-117). -/
def kindsAfterResize (modes : List Mode) : List (Option ModeKind) :=
  (kindsScan modes).take (tEndOf modes)
    ++ List.replicate (modes.length - tEndOf modes) (some ModeKind.Vibrational)

/-- Embedding of `perform_acoustic_search` (acoustic_search.rs, lines
69-179): translational scan, the more-than-three check, truncate/resize,
the negative-eigenvalue classification loop, and the final `expect` that
every index was classified. -/
def perform_acoustic_search (sqrtQ : ℚ → ℚ)
    (rotational_fdot_threshold imaginary_fdot_threshold : ℚ)
    (modes : List Mode) : Except AcErr (List ModeKind) :=
  let n := modes.length
  let zeroIndex := zeroIndexOf modes
  let kindsA := kindsAfterResize modes
  if 3 < transCount modes then Except.error AcErr.tooManyTranslational
  else
    match collect
        (fun i =>
          match kindsA.getD i none with
          | some k => Except.ok (some k)
          | none =>
              if i < zeroIndex then
                match classifyNegativeMode sqrtQ rotational_fdot_threshold
                    imaginary_fdot_threshold (modes.getD i default) with
                | none => Except.error AcErr.badDot
                | some kw => Except.ok (some kw.1)
              else Except.ok none)
        n with
    | Except.error e => Except.error e
    | Except.ok kindsB =>
        collect
          (fun i =>
            match kindsB.getD i none with
            | some k => Except.ok k
            | none => Except.error AcErr.unaccounted)
          n

/-! ## Child-process driver (src/tasks/phonopy/cmd.rs, `log_stdio_and_wait`)

The driver is embedded as a sequential event trace: the source spawns the
child, optionally writes the prepared stdin string, spawns the two
line-forwarding worker threads, waits for the child, checks the exit status
(`check_status`, whose `ensure!` raises `PhonopyFailed(status)` and — via
the `?` operator — returns from the function), and only then joins the two
workers.  The trace records the order in which these effects happen on the
path taken; the claim under scrutiny is about which effects precede the
return. -/

/-- Embedding of `std::process::ExitStatus` as observed by `check_status`:
only success/non-success matters, plus an opaque code for display. -/
structure ChildStatus where
  success : Bool
  code : ℤ
deriving DecidableEq

/-- The observable effects of `log_stdio_and_wait`, in program order. -/
inductive PEvent where
  | spawn : PEvent
  | writeStdin : PEvent
  | spawnStdoutWorker : PEvent
  | spawnStderrWorker : PEvent
  | wait : PEvent
  | joinStdout : PEvent
  | joinStderr : PEvent
deriving DecidableEq

/-- Embedding of the error raised by `check_status` (cmd.rs: the
`PhonopyFailed(status)` error kind; the spec calls it *ProcessFailed*). -/
inductive DriverErr where
  | processFailed : ChildStatus → DriverErr
deriving DecidableEq

/-- Embedding of `log_stdio_and_wait` (src/tasks/phonopy/cmd.rs, lines
639-683; src/phonopy-io/cmd.rs lines 248-282 is identical but for the
stdin parameter).  `status` is the exit status the child will report.
Returns the function result and the trace of effects on that path. -/
def log_stdio_and_wait (stdin : Option String) (status : ChildStatus) :
    Except DriverErr Unit × List PEvent :=
  let pre : List PEvent :=
    [PEvent.spawn]
      ++ (match stdin with
          | some _ => [PEvent.writeStdin]
          | none => [])
      ++ [PEvent.spawnStdoutWorker, PEvent.spawnStderrWorker, PEvent.wait]
  if status.success then
    (Except.ok (), pre ++ [PEvent.joinStdout, PEvent.joinStderr])
  else
    (Except.error (DriverErr.processFailed status), pre)

/-! ## Theorems -/

/-- Claim C1, counterexample: starting from the initial state
(iteration = 1, clean = 0), a single `step` with input did-chase = false
moves the iteration counter from 1 to 2, refuting the part of the claim
that says such a step increments only the clean counter and leaves the
iteration counter unchanged. -/
theorem C1_counterexample :
    (EvLoopFsm.new ⟨3, 15, true⟩).iteration = 1 ∧
    ((EvLoopFsm.new ⟨3, 15, true⟩).step false).1.iteration = 2 := by
  decide

/-- Claim C1 (amended): from the initial state iteration = 1, clean = 0,
every call of `step` increments the iteration counter (for either input);
with did-chase = true it also resets the clean counter to 0 and emits
Exhausted (`ItsBadGuys` on `fail = true`, warned `Done` on `fail = false`)
when the incremented iteration exceeds `max_iter`, else KeepGoing; with
did-chase = false it also increments the clean counter and emits Done when
that counter reaches `min_positive_iter`, else KeepGoing. -/
theorem C1_evloop_fsm_step (cfg : EvLoopConfig) (fsm : EvLoopFsm) (did : Bool) :
    EvLoopFsm.new cfg = ⟨cfg, 1, 0⟩ ∧
    (fsm.step did).1.iteration = fsm.iteration + 1 ∧
    (did = true →
      (fsm.step did).1.all_ok_count = 0 ∧
      (fsm.iteration + 1 > fsm.config.max_iter →
        (fsm.config.fail = true →
          (fsm.step did).2.1 = EvLoopStatus.ItsBadGuys "Too many relaxation steps!") ∧
        (fsm.config.fail = false →
          (fsm.step did).2.1 = EvLoopStatus.Done ∧ (fsm.step did).2.2 = true)) ∧
      (¬(fsm.iteration + 1 > fsm.config.max_iter) →
        (fsm.step did).2.1 = EvLoopStatus.KeepGoing)) ∧
    (did = false →
      (fsm.step did).1.all_ok_count = fsm.all_ok_count + 1 ∧
      (fsm.all_ok_count + 1 ≥ fsm.config.min_positive_iter →
        (fsm.step did).2.1 = EvLoopStatus.Done) ∧
      (¬(fsm.all_ok_count + 1 ≥ fsm.config.min_positive_iter) →
        (fsm.step did).2.1 = EvLoopStatus.KeepGoing)) := by
  refine ⟨rfl, ?_, ?_, ?_⟩
  · cases did <;> simp only [EvLoopFsm.step] <;> split_ifs <;> rfl
  · intro hd
    subst hd
    simp only [EvLoopFsm.step]
    refine ⟨by split_ifs <;> rfl, fun hgt => ⟨fun hfail => ?_, fun hfail => ?_⟩,
      fun hngt => ?_⟩
    · rw [if_pos hgt, if_pos hfail]
    · rw [if_pos hgt, if_neg (by simp [hfail])]
      exact ⟨rfl, rfl⟩
    · rw [if_neg hngt]
  · intro hd
    subst hd
    simp only [EvLoopFsm.step]
    refine ⟨by split_ifs <;> rfl, fun hge => ?_, fun hnge => ?_⟩
    · rw [if_pos hge]
    · rw [if_neg hnge]

/-- Claim C1, witness: the amended characterization evaluated at concrete
states, covering the did-chase and the did-not-chase branch. -/
theorem C1_evloop_fsm_step_witness :
    ((EvLoopFsm.new ⟨3, 15, true⟩).step true).1.iteration = 2 ∧
    ((EvLoopFsm.new ⟨1, 15, true⟩).step false).2.1 = EvLoopStatus.Done := by
  refine ⟨(C1_evloop_fsm_step ⟨3, 15, true⟩ (EvLoopFsm.new ⟨3, 15, true⟩) true).2.1, ?_⟩
  have h := (C1_evloop_fsm_step ⟨1, 15, true⟩ (EvLoopFsm.new ⟨1, 15, true⟩) false).2.2.2 rfl
  exact h.2.1 (by decide)

/-- Claim C2: for every lattice with nonzero determinant and every list of
coordinate vectors, fractional-to-Cartesian followed by
Cartesian-to-fractional reproduces the input within 1e-10 componentwise,
and likewise in the other order.  (In the exact-rational embedding the
round trip is exact, so any nonnegative tolerance holds.) -/
theorem C2_coords_roundtrip (l : Lattice) (c : List V3) (hdet : l.matrix.det ≠ 0) :
    List.Forall₂ (V3.close (1/10^10))
      ((CoordsKind.Carts ((CoordsKind.Fracs c).into_carts l)).into_fracs l) c ∧
    List.Forall₂ (V3.close (1/10^10))
      ((CoordsKind.Fracs ((CoordsKind.Carts c).into_fracs l)).into_carts l) c := by
  rw [frac_cart_frac_eq l c hdet, cart_frac_cart_eq l c hdet]
  constructor <;>
    · rw [List.forall₂_same]
      intro x _
      unfold V3.close
      norm_num

/-- Claim C2, witness: the round trip evaluated on a concrete lattice of
determinant 2 and one concrete coordinate vector. -/
theorem C2_coords_roundtrip_witness :
    (Lattice.mk ⟨⟨2, 0, 0⟩, ⟨0, 1, 0⟩, ⟨0, 0, 1⟩⟩).matrix.det ≠ 0 ∧
    List.Forall₂ (V3.close (1/10^10))
      ((CoordsKind.Carts ((CoordsKind.Fracs [⟨1, 2, 3⟩]).into_carts
        (Lattice.mk ⟨⟨2, 0, 0⟩, ⟨0, 1, 0⟩, ⟨0, 0, 1⟩⟩))).into_fracs
        (Lattice.mk ⟨⟨2, 0, 0⟩, ⟨0, 1, 0⟩, ⟨0, 0, 1⟩⟩)) [⟨1, 2, 3⟩] ∧
    List.Forall₂ (V3.close (1/10^10))
      ((CoordsKind.Fracs ((CoordsKind.Carts [⟨1, 2, 3⟩]).into_fracs
        (Lattice.mk ⟨⟨2, 0, 0⟩, ⟨0, 1, 0⟩, ⟨0, 0, 1⟩⟩))).into_carts
        (Lattice.mk ⟨⟨2, 0, 0⟩, ⟨0, 1, 0⟩, ⟨0, 0, 1⟩⟩)) [⟨1, 2, 3⟩] :=
  ⟨by norm_num [M33.det], C2_coords_roundtrip _ [⟨1, 2, 3⟩] (by norm_num [M33.det])⟩

/-- Claim C9, counterexample: with a non-success exit status the driver
raises ProcessFailed(status) and returns without joining either worker
thread, refuting the claim that every return path joins both workers. -/
theorem C9_counterexample :
    (log_stdio_and_wait none ⟨false, 1⟩).1 =
      Except.error (DriverErr.processFailed ⟨false, 1⟩) ∧
    PEvent.joinStdout ∉ (log_stdio_and_wait none ⟨false, 1⟩).2 ∧
    PEvent.joinStderr ∉ (log_stdio_and_wait none ⟨false, 1⟩).2 := by
  refine ⟨rfl, ?_, ?_⟩ <;> simp [log_stdio_and_wait]

/-- Claim C9 (amended): on the success path the driver returns `Ok` only
after the child has exited and both worker threads have been joined (the
trace ends `wait, joinStdout, joinStderr`); on the non-success path the
error ProcessFailed(status) is raised after the child has exited but
before either worker thread is joined. -/
theorem C9_join_ordering (stdin : Option String) (status : ChildStatus) :
    (status.success = true →
      (log_stdio_and_wait stdin status).1 = Except.ok () ∧
      (log_stdio_and_wait stdin status).2.drop
          ((log_stdio_and_wait stdin status).2.length - 3) =
        [PEvent.wait, PEvent.joinStdout, PEvent.joinStderr]) ∧
    (status.success = false →
      (log_stdio_and_wait stdin status).1 =
        Except.error (DriverErr.processFailed status) ∧
      PEvent.joinStdout ∉ (log_stdio_and_wait stdin status).2 ∧
      PEvent.joinStderr ∉ (log_stdio_and_wait stdin status).2 ∧
      (log_stdio_and_wait stdin status).2.drop
          ((log_stdio_and_wait stdin status).2.length - 1) =
        [PEvent.wait]) := by
  obtain ⟨b, code⟩ := status
  cases b <;> cases stdin <;>
    exact ⟨fun h => by simp_all [log_stdio_and_wait],
           fun h => by simp_all [log_stdio_and_wait]⟩

/-- Claim C9, witness: the amended ordering evaluated at a concrete
success run and a concrete failing run. -/
theorem C9_join_ordering_witness :
    ((log_stdio_and_wait (some "x") ⟨true, 0⟩).1 = Except.ok () ∧
      (log_stdio_and_wait (some "x") ⟨true, 0⟩).2.drop
          ((log_stdio_and_wait (some "x") ⟨true, 0⟩).2.length - 3) =
        [PEvent.wait, PEvent.joinStdout, PEvent.joinStderr]) ∧
    ((log_stdio_and_wait none ⟨false, 2⟩).1 =
        Except.error (DriverErr.processFailed ⟨false, 2⟩) ∧
      PEvent.joinStdout ∉ (log_stdio_and_wait none ⟨false, 2⟩).2 ∧
      PEvent.joinStderr ∉ (log_stdio_and_wait none ⟨false, 2⟩).2 ∧
      (log_stdio_and_wait none ⟨false, 2⟩).2.drop
          ((log_stdio_and_wait none ⟨false, 2⟩).2.length - 1) =
        [PEvent.wait]) :=
  ⟨(C9_join_ordering (some "x") ⟨true, 0⟩).1 rfl,
   (C9_join_ordering none ⟨false, 2⟩).2 rfl⟩

lemma wrapValue_const {E : Type} (c : ℚ) (f : ℚ → Except E ℚ)
    (hf : ∀ alpha, f alpha = Except.ok c) :
    ∀ x, wrapValue f x = Except.ok (⟨x, c⟩ : ValueBound) := by
  intro x
  simp [wrapValue, hf]

lemma goldenLoop_const {E : Type} (phi c : ℚ) (f : ℚ → Except E ℚ)
    (hf : ∀ alpha, f alpha = Except.ok c) :
    ∀ (n : ℕ) (a b d : ValueBound), a.value = c → b.value = c → d.value = c →
      goldenLoop phi (wrapValue f) n (a, b, d) = Except.ok none := by
  intro n
  induction n with
  | zero => intro a b d _ _ _; rfl
  | succ n ih =>
      intro a b d ha hb hd
      have key : ¬ (min a.value d.value < b.value) := by
        rw [ha, hb, hd, min_self]
        exact lt_irrefl c
      simp only [goldenLoop, gt_iff_lt, wrapValue_const c f hf]
      rw [if_neg key, if_neg (by simp [hb])]
      exact ih _ _ _ (by simp [hb]) rfl hd

/-- Claim C5: for an exactly constant value callback, the stop clause
`b.value > min(a.value, d.value)` of `golden` compares equal values with a
strict inequality and therefore never fires; the loop never returns for any
fuel bound (in the source: it loops forever), contradicting the claim that
`golden` terminates on flat input via that clause. -/
theorem C5_golden_flat_no_return {E : Type} (phi c : ℚ) (f : ℚ → Except E ℚ)
    (hf : ∀ alpha, f alpha = Except.ok c) (fuel : ℕ) (interval : ℚ × ℚ) :
    golden phi fuel interval f = Except.ok (Except.ok none) := by
  simp only [golden, wrapValue_const c f hf]
  rw [goldenLoop_const phi c f hf fuel _ _ _ rfl rfl rfl]
  rfl

/-- Claim C5, witness: a concrete flat callback on the interval (0, 1)
exhausts a concrete fuel bound without returning. -/
theorem C5_golden_flat_no_return_witness :
    golden (1618/1000) 6 (0, 1) ((fun _ => Except.ok 0) : ℚ → Except Unit ℚ) =
      Except.ok (Except.ok none) :=
  C5_golden_flat_no_return (1618/1000) 0 _ (fun _ => rfl) 6 (0, 1)

lemma wrapSlope_ok {E : Type} (f : ℚ → Except E ℚ) (x s : ℚ)
    (h : f x = Except.ok s) : wrapSlope f x = Except.ok (⟨x, s⟩ : SlopeBound) := by
  simp [wrapSlope, h]

lemma mirrorCompute_eq_wrap_neg {E : Type} (f : ℚ → Except E ℚ) (center : ℚ) :
    mirrorCompute (wrapSlope f) center =
      wrapSlope (fun alpha => Except.map Neg.neg (f (2 * center - alpha))) := by
  funext alpha
  simp only [mirrorCompute, wrapSlope]
  cases hfa : f (2 * center - alpha) <;> simp [Except.map]

/-- Claim C3: if the slope at the starting abscissa is strictly positive,
then (a) whenever the mirroring-assumption check (the IEEE-754 identity
`2.0 * x0 - x0 == x0`, abstracted by the `mirrorOk` oracle) fails, the
linesearch returns the `BadBound` error carrying the starting abscissa, and
(b) whenever the check passes, the linesearch behaves exactly as the
unmirrored search run on the callback probed at the mirrored argument
`2 * alpha0 - alpha` with the returned slope negated. -/
theorem C3_linesearch_mirroring {E : Type} (fmid : ℚ → ℚ → ℚ)
    (mirrorOk : ℚ → Bool) (fuel : ℕ) (from_ step : ℚ) (f : ℚ → Except E ℚ)
    (s : ℚ) (hf : f from_ = Except.ok s) (hs : 0 < s) :
    (mirrorOk from_ = false →
      linesearch fmid mirrorOk fuel from_ step f =
        Except.error (LsErr.BadBound from_)) ∧
    (mirrorOk from_ = true →
      linesearch fmid mirrorOk fuel from_ step f =
        linesearch fmid mirrorOk fuel from_ step
          (fun alpha => Except.map Neg.neg (f (2 * from_ - alpha)))) := by
  have hw : wrapSlope f from_ = Except.ok (⟨from_, s⟩ : SlopeBound) :=
    wrapSlope_ok f from_ s hf
  have hg : wrapSlope (fun alpha => Except.map Neg.neg (f (2 * from_ - alpha))) from_ =
      Except.ok (⟨from_, -s⟩ : SlopeBound) := by
    have h2 : 2 * from_ - from_ = from_ := by ring
    simp [wrapSlope, h2, hf, Except.map]
  constructor
  · intro hmo
    simp only [linesearch, hw]
    rw [if_pos hs, if_neg (by simp [hmo])]
    rfl
  · intro hmo
    simp only [linesearch, hw, hg]
    rw [if_pos hs, if_pos hmo, if_neg (by simp; linarith)]
    rw [mirrorCompute_eq_wrap_neg f from_]

/-- Claim C3, witness: the two branches evaluated concretely — a failing
mirror check yields BadBound(0), and a passing one makes the search agree
with the explicitly mirrored callback. -/
theorem C3_linesearch_mirroring_witness :
    (linesearch (fun x y => (x + y) / 2) (fun _ => false) 3 0 1
        ((fun _ => Except.ok 1) : ℚ → Except Unit ℚ) =
      Except.error (LsErr.BadBound 0)) ∧
    (linesearch (fun x y => (x + y) / 2) (fun _ => true) 3 0 1
        ((fun _ => Except.ok 1) : ℚ → Except Unit ℚ) =
      linesearch (fun x y => (x + y) / 2) (fun _ => true) 3 0 1
        (fun alpha => Except.map Neg.neg
          (((fun _ => Except.ok 1) : ℚ → Except Unit ℚ) (2 * 0 - alpha)))) :=
  ⟨(C3_linesearch_mirroring (fun x y => (x + y) / 2) (fun _ => false) 3 0 1 _ 1
      rfl (by norm_num)).1 rfl,
   (C3_linesearch_mirroring (fun x y => (x + y) / 2) (fun _ => true) 3 0 1 _ 1
      rfl (by norm_num)).2 rfl⟩

lemma bisectStep_inl_iff {E : Type} (fmid : ℚ → ℚ → ℚ)
    (compute : ℚ → Except (Sum E LsErr) SlopeBound) (lo hi : SlopeBound)
    (x : SlopeBound) :
    bisectStep fmid compute (lo, hi) = Except.ok (Sum.inl x) ↔
      (x = lo ∧
        ¬(lo.alpha < fmid lo.alpha hi.alpha ∧ fmid lo.alpha hi.alpha < hi.alpha)) := by
  simp only [bisectStep]
  split_ifs with h
  · cases hc : compute (fmid lo.alpha hi.alpha) with
    | error e => simp [h]
    | ok bound => by_cases hb : bound.slope ≥ 0 <;> simp [h, hb]
  · constructor
    · intro heq
      have hx : Sum.inl (β := SlopeBound × SlopeBound) lo = Sum.inl x :=
        Except.ok.inj heq
      exact ⟨(Sum.inl.inj hx).symm, h⟩
    · intro ⟨hx, _⟩
      rw [hx]

lemma bisectStep_inr_inv {E : Type} (fmid : ℚ → ℚ → ℚ)
    (compute : ℚ → Except (Sum E LsErr) SlopeBound) (lo hi lo2 hi2 : SlopeBound)
    (hlo : lo.slope ≤ 0) (hhi : 0 ≤ hi.slope)
    (h : bisectStep fmid compute (lo, hi) = Except.ok (Sum.inr (lo2, hi2))) :
    lo2.slope ≤ 0 ∧ 0 ≤ hi2.slope := by
  simp only [bisectStep] at h
  split_ifs at h with hmid
  · cases hc : compute (fmid lo.alpha hi.alpha) with
    | error e => rw [hc] at h; cases h
    | ok bound =>
        rw [hc] at h
        by_cases hb : bound.slope ≥ 0
        · simp only [if_pos hb] at h
          obtain ⟨h1, h2⟩ := Prod.mk.inj (Sum.inr.inj (Except.ok.inj h))
          rw [← h1, ← h2]
          exact ⟨hlo, hb⟩
        · simp only [if_neg hb] at h
          obtain ⟨h1, h2⟩ := Prod.mk.inj (Sum.inr.inj (Except.ok.inj h))
          rw [← h1, ← h2]
          exact ⟨le_of_not_le (by simpa using hb), hhi⟩
  · cases h

/-- Claim C4: entering refinement with `lo.slope ≤ 0` and `hi.slope ≥ 0`,
the invariant `lo.slope ≤ 0 ≤ hi.slope` holds at the start of every
bisection iteration, and an iteration returns the current `lo` exactly when
the (floating-point, oracle `fmid`) midpoint of the interval is not
strictly between the two endpoint abscissas. -/
theorem C4_bisect_invariant {E : Type} (fmid : ℚ → ℚ → ℚ)
    (compute : ℚ → Except (Sum E LsErr) SlopeBound) (lo hi : SlopeBound)
    (hlo : lo.slope ≤ 0) (hhi : 0 ≤ hi.slope) (n : ℕ) (lo2 hi2 : SlopeBound)
    (hreach : bisectStates fmid compute n (lo, hi) = some (lo2, hi2)) :
    (lo2.slope ≤ 0 ∧ 0 ≤ hi2.slope) ∧
    (bisectStep fmid compute (lo2, hi2) = Except.ok (Sum.inl lo2) ↔
      ¬(lo2.alpha < fmid lo2.alpha hi2.alpha ∧
        fmid lo2.alpha hi2.alpha < hi2.alpha)) := by
  induction n generalizing lo hi with
  | zero =>
      obtain ⟨h1, h2⟩ := Prod.mk.inj (Option.some.inj hreach)
      subst h1
      subst h2
      refine ⟨⟨hlo, hhi⟩, ?_⟩
      rw [bisectStep_inl_iff]
      simp
  | succ n ih =>
      simp only [bisectStates] at hreach
      cases hstep : bisectStep fmid compute (lo, hi) with
      | error e => rw [hstep] at hreach; cases hreach
      | ok r =>
          rw [hstep] at hreach
          cases r with
          | inl b => cases hreach
          | inr s2 =>
              obtain ⟨mlo, mhi⟩ := s2
              obtain ⟨h1, h2⟩ :=
                bisectStep_inr_inv fmid compute lo hi mlo mhi hlo hhi hstep
              exact ih mlo mhi h1 h2 hreach

/-- Claim C4, witness: one concrete bisection iteration — from the interval
`(0, -1), (1, 1)` with exact midpoint, the state after one step satisfies
the invariant, and its return condition matches the midpoint test. -/
theorem C4_bisect_invariant_witness :
    bisectStates (fun x y => (x + y) / 2)
      ((fun alpha => Except.ok ⟨alpha, 1⟩) :
        ℚ → Except (Sum Unit LsErr) SlopeBound) 1
      (⟨0, -1⟩, ⟨1, 1⟩) = some (⟨0, -1⟩, ⟨1/2, 1⟩) ∧
    ((SlopeBound.mk 0 (-1)).slope ≤ 0 ∧ (0:ℚ) ≤ (SlopeBound.mk (1/2) 1).slope) ∧
    (bisectStep (fun x y => (x + y) / 2)
        ((fun alpha => Except.ok ⟨alpha, 1⟩) :
          ℚ → Except (Sum Unit LsErr) SlopeBound)
        (⟨0, -1⟩, ⟨1/2, 1⟩) = Except.ok (Sum.inl ⟨0, -1⟩) ↔
      ¬((SlopeBound.mk 0 (-1)).alpha <
          (fun x y => (x + y) / 2) (SlopeBound.mk 0 (-1)).alpha
            (SlopeBound.mk (1/2) 1).alpha ∧
        (fun x y => (x + y) / 2) (SlopeBound.mk 0 (-1)).alpha
            (SlopeBound.mk (1/2) 1).alpha < (SlopeBound.mk (1/2) 1).alpha)) := by
  have hreach : bisectStates (fun x y => (x + y) / 2)
      ((fun alpha => Except.ok ⟨alpha, 1⟩) :
        ℚ → Except (Sum Unit LsErr) SlopeBound) 1
      (⟨0, -1⟩, ⟨1, 1⟩) = some (⟨0, -1⟩, ⟨1/2, 1⟩) := by
    norm_num [bisectStates, bisectStep]
  exact ⟨hreach,
    C4_bisect_invariant (fun x y => (x + y) / 2) _ ⟨0, -1⟩ ⟨1, 1⟩
      (by norm_num) (by norm_num) 1 ⟨0, -1⟩ ⟨1/2, 1⟩ hreach⟩

lemma nestErr_ok_ok_iff {E A : Type} (x : Except (Sum E LsErr) A) (y : A) :
    nestErr x = Except.ok (Except.ok y) ↔ x = Except.ok y := by
  cases x with
  | ok v => simp [nestErr]
  | error e => cases e <;> simp [nestErr]

lemma findInitial_some_fst {E : Type}
    (compute : ℚ → Except (Sum E LsErr) SlopeBound) (n : ℕ) :
    ∀ (a b a2 b2 : SlopeBound),
      findInitial compute n a b = Except.ok (some (a2, b2)) → a2 = a := by
  induction n with
  | zero =>
      intro a b a2 b2 h
      simp only [findInitial] at h
      split_ifs at h with hb
      · cases h
      · exact ((Prod.mk.inj (Option.some.inj (Except.ok.inj h))).1).symm
  | succ n ih =>
      intro a b a2 b2 h
      simp only [findInitial] at h
      split_ifs at h with hb
      · cases hc : compute (b.alpha + (b.alpha - a.alpha)) with
        | error e => rw [hc] at h; cases h
        | ok b3 =>
            rw [hc] at h
            exact ih a b3 a2 b2 h
      · exact ((Prod.mk.inj (Option.some.inj (Except.ok.inj h))).1).symm

lemma bisect_nonneg_slopes_ret_lo {E : Type} (fmid : ℚ → ℚ → ℚ)
    (compute : ℚ → Except (Sum E LsErr) SlopeBound)
    (hall : ∀ alpha sb, compute alpha = Except.ok sb → 0 ≤ sb.slope) (n : ℕ) :
    ∀ (lo hi x : SlopeBound),
      bisect fmid compute n (lo, hi) = Except.ok (some x) → x = lo := by
  induction n with
  | zero => intro lo hi x h; cases h
  | succ n ih =>
      intro lo hi x h
      simp only [bisect] at h
      cases hstep : bisectStep fmid compute (lo, hi) with
      | error e => rw [hstep] at h; cases h
      | ok r =>
          rw [hstep] at h
          cases r with
          | inl b =>
              have hb := (bisectStep_inl_iff fmid compute lo hi b).mp hstep
              rw [Option.some.inj (Except.ok.inj h)] at hb
              exact hb.1
          | inr s2 =>
              obtain ⟨mlo, mhi⟩ := s2
              have hlo2 : mlo = lo := by
                simp only [bisectStep] at hstep
                split_ifs at hstep with hmid
                · cases hc : compute (fmid lo.alpha hi.alpha) with
                  | error e => rw [hc] at hstep; cases hstep
                  | ok bound =>
                      simp only [hc, ge_iff_le, hall _ _ hc, if_true,
                        Except.ok.injEq, Sum.inr.injEq, Prod.mk.injEq] at hstep
                      exact hstep.1.symm
                · cases hstep
              rw [← hlo2]
              exact ih mlo mhi x h

/-- Claim C6 (amended): with a starting slope of exactly zero the search is
not mirrored and the starting point becomes the lower bracket endpoint;
whenever every slope the callback reports is nonnegative, the returned
bound has abscissa exactly `from`.  (In general — see the counterexample —
bisection may move the lower endpoint onto a later probe with negative
slope, and the returned abscissa then differs from `from`.) -/
theorem C6_zero_slope_start {E : Type} (fmid : ℚ → ℚ → ℚ)
    (mirrorOk : ℚ → Bool) (fuel : ℕ) (from_ step : ℚ)
    (f : ℚ → Except E ℚ) (b : SlopeBound)
    (h0 : f from_ = Except.ok 0)
    (hpos : ∀ alpha s, f alpha = Except.ok s → 0 ≤ s)
    (hrun : linesearch fmid mirrorOk fuel from_ step f =
      Except.ok (Except.ok (some b))) :
    b.alpha = from_ := by
  have hw : wrapSlope f from_ = Except.ok (⟨from_, 0⟩ : SlopeBound) :=
    wrapSlope_ok f from_ 0 h0
  have hall : ∀ alpha sb, wrapSlope f alpha = Except.ok sb → 0 ≤ sb.slope := by
    intro alpha sb h
    cases hfa : f alpha with
    | error e => rw [wrapSlope, hfa] at h; cases h
    | ok s =>
        rw [wrapSlope_ok f alpha s hfa] at h
        rw [← Except.ok.inj h]
        exact hpos alpha s hfa
  simp only [linesearch, hw] at hrun
  rw [if_neg (by norm_num)] at hrun
  rw [nestErr_ok_ok_iff] at hrun
  simp only [searchCore] at hrun
  cases hsec : wrapSlope f (from_ + step) with
  | error e => rw [hsec] at hrun; cases hrun
  | ok b0 =>
      simp only [hsec] at hrun
      cases hfi : findInitial (wrapSlope f) fuel ⟨from_, 0⟩ b0 with
      | error e => simp only [hfi] at hrun; cases hrun
      | ok r =>
          simp only [hfi] at hrun
          cases r with
          | none => cases hrun
          | some s2 =>
              obtain ⟨a2, b2⟩ := s2
              have ha2 : a2 = ⟨from_, 0⟩ :=
                findInitial_some_fst (wrapSlope f) fuel ⟨from_, 0⟩ b0 a2 b2 hfi
              have hx : b = a2 :=
                bisect_nonneg_slopes_ret_lo fmid (wrapSlope f) hall fuel a2 b2 b hrun
              rw [hx, ha2]

/-- Claim C6, witness for the amended statement: a callback with slope
identically zero, run with a midpoint oracle that collapses intervals of
width at most 1/4, returns the starting abscissa 0. -/
theorem C6_zero_slope_start_witness :
    linesearch (fun x y => if y - x ≤ 1/4 then x else (x + y) / 2)
      (fun _ => true) 9 0 1 ((fun _ => Except.ok 0) : ℚ → Except Unit ℚ) =
      Except.ok (Except.ok (some ⟨0, 0⟩)) ∧
    (SlopeBound.mk 0 0).alpha = 0 := by
  have hrun : linesearch (fun x y => if y - x ≤ 1/4 then x else (x + y) / 2)
      (fun _ => true) 9 0 1 ((fun _ => Except.ok 0) : ℚ → Except Unit ℚ) =
      Except.ok (Except.ok (some ⟨0, 0⟩)) := by
    norm_num [linesearch, wrapSlope, nestErr, searchCore, findInitial, bisect,
      bisectStep]
  exact ⟨hrun,
    C6_zero_slope_start (fun x y => if y - x ≤ 1/4 then x else (x + y) / 2)
      (fun _ => true) 9 0 1 ((fun _ => Except.ok 0) : ℚ → Except Unit ℚ)
      ⟨0, 0⟩ rfl
      (fun alpha s h => by
        injection h with h1
        exact le_of_eq h1) hrun⟩

/-- Claim C6, counterexample: a callback whose slope at the start is exactly
zero but which reports a negative slope at the first probed midpoint; the
exact linesearch returns the bound `(1/2, -1)`, whose abscissa differs from
the starting abscissa 0, refuting the claim as stated. -/
theorem C6_counterexample :
    ((fun alpha => if alpha = 0 then Except.ok 0
        else if alpha ≤ 1/2 then Except.ok (-1) else Except.ok 1) :
      ℚ → Except Unit ℚ) 0 = Except.ok 0 ∧
    linesearch (fun x y => if y - x ≤ 1/4 then x else (x + y) / 2)
      (fun _ => true) 9 0 1
      ((fun alpha => if alpha = 0 then Except.ok 0
          else if alpha ≤ 1/2 then Except.ok (-1) else Except.ok 1) :
        ℚ → Except Unit ℚ) =
      Except.ok (Except.ok (some ⟨1/2, -1⟩)) ∧
    (SlopeBound.mk (1/2) (-1)).alpha ≠ 0 := by
  refine ⟨by norm_num, ?_, by norm_num⟩
  norm_num [linesearch, wrapSlope, nestErr, searchCore, findInitial, bisect,
    bisectStep]

/-- Claim C7: for a negative-eigenvalue mode not already labeled
Translational, with `c` the dot product of the two (fallback-)normalized
finite-difference gradient changes lying in the sanity range
`[-1.001, 1.001]`, the classifier yields Rotational exactly when
`c ≤ -rotational_fdot_threshold`; otherwise Imaginary without warning
exactly when `c ≥ imaginary_fdot_threshold`; and otherwise Imaginary with
a warning in the ambiguous case. -/
theorem C7_negative_mode_classification (sqrtQ : ℚ → ℚ)
    (rotThreshold imagThreshold e a : ℚ) (u v : List ℚ)
    (hlo : -(1001/1000) ≤ vdot (normalizeOrRaw sqrtQ u) (normalizeOrRaw sqrtQ v))
    (hhi : vdot (normalizeOrRaw sqrtQ u) (normalizeOrRaw sqrtQ v) ≤ 1001/1000) :
    (classifyNegativeMode sqrtQ rotThreshold imagThreshold ⟨e, a, u, v⟩ =
        some (ModeKind.Rotational, false) ↔
      vdot (normalizeOrRaw sqrtQ u) (normalizeOrRaw sqrtQ v) ≤ -rotThreshold) ∧
    (¬(vdot (normalizeOrRaw sqrtQ u) (normalizeOrRaw sqrtQ v) ≤ -rotThreshold) →
      (classifyNegativeMode sqrtQ rotThreshold imagThreshold ⟨e, a, u, v⟩ =
          some (ModeKind.Imaginary, false) ↔
        imagThreshold ≤ vdot (normalizeOrRaw sqrtQ u) (normalizeOrRaw sqrtQ v))) ∧
    (¬(vdot (normalizeOrRaw sqrtQ u) (normalizeOrRaw sqrtQ v) ≤ -rotThreshold) →
      ¬(imagThreshold ≤ vdot (normalizeOrRaw sqrtQ u) (normalizeOrRaw sqrtQ v)) →
      classifyNegativeMode sqrtQ rotThreshold imagThreshold ⟨e, a, u, v⟩ =
        some (ModeKind.Imaginary, true)) := by
  have hguard : ¬(vdot (normalizeOrRaw sqrtQ u) (normalizeOrRaw sqrtQ v) < -(1001/1000) ∨
      (1001/1000 : ℚ) < vdot (normalizeOrRaw sqrtQ u) (normalizeOrRaw sqrtQ v)) := by
    rw [not_or]
    exact ⟨not_lt.mpr hlo, not_lt.mpr hhi⟩
  simp only [classifyNegativeMode, classifyDot]
  rw [if_neg hguard]
  refine ⟨?_, fun hrot => ?_, fun hrot himag => ?_⟩
  · by_cases hrot : vdot (normalizeOrRaw sqrtQ u) (normalizeOrRaw sqrtQ v) ≤ -rotThreshold
    · rw [if_pos hrot]
      simp [hrot]
    · rw [if_neg hrot]
      split_ifs <;> simp [hrot]
  · rw [if_neg hrot]
    by_cases himag :
        imagThreshold ≤ vdot (normalizeOrRaw sqrtQ u) (normalizeOrRaw sqrtQ v)
    · rw [if_pos himag]
      simp [himag]
    · rw [if_neg himag]
      simp [himag]
  · rw [if_neg hrot, if_neg himag]

/-- Claim C7, witness: with square root oracle mapping 25 to 5, thresholds
0.8, and gradient changes (3, 4) and (-3, -4), the normalized dot product
is -1 and the mode is classified Rotational without warning. -/
theorem C7_negative_mode_classification_witness :
    vdot (normalizeOrRaw (fun x => if x = 25 then 5 else 1) [3, 4])
        (normalizeOrRaw (fun x => if x = 25 then 5 else 1) [-3, -4]) = -1 ∧
    (classifyNegativeMode (fun x => if x = 25 then 5 else 1) (8/10) (8/10)
        ⟨-2, 0, [3, 4], [-3, -4]⟩ = some (ModeKind.Rotational, false) ↔
      vdot (normalizeOrRaw (fun x => if x = 25 then 5 else 1) [3, 4])
          (normalizeOrRaw (fun x => if x = 25 then 5 else 1) [-3, -4]) ≤ -(8/10)) := by
  have hc : vdot (normalizeOrRaw (fun x => if x = 25 then 5 else 1) [3, 4])
      (normalizeOrRaw (fun x => if x = 25 then 5 else 1) [-3, -4]) = -1 := by
    norm_num [vdot, normalizeOrRaw, vnormalize]
  exact ⟨hc,
    (C7_negative_mode_classification (fun x => if x = 25 then 5 else 1)
      (8/10) (8/10) (-2) 0 [3, 4] [-3, -4]
      (by rw [hc]; norm_num) (by rw [hc]; norm_num)).1⟩

lemma vdot_self_nonneg (u : List ℚ) : 0 ≤ vdot u u := by
  induction u with
  | nil => simp [vdot]
  | cons x t ih =>
      simp only [vdot, List.zipWith_cons_cons, List.sum_cons] at ih ⊢
      nlinarith [mul_self_nonneg x]

lemma vdot_self_zero (u : List ℚ) (h : vdot u u = 0) : ∀ x ∈ u, x = 0 := by
  induction u with
  | nil => simp
  | cons x t ih =>
      simp only [vdot, List.zipWith_cons_cons, List.sum_cons] at h
      have ht : 0 ≤ vdot t t := vdot_self_nonneg t
      have hx2 : 0 ≤ x * x := mul_self_nonneg x
      have hx : x * x = 0 := by
        simp only [vdot] at ht
        linarith
      have hzero : x = 0 := by
        exact mul_self_eq_zero.mp hx
      intro y hy
      rcases List.mem_cons.mp hy with h1 | h2
      · rw [h1, hzero]
      · exact ih (by simp only [vdot] at h ht ⊢; linarith [mul_self_eq_zero.mpr hzero]) y h2

lemma vdot_left_zero (u w : List ℚ) (h : ∀ x ∈ u, x = 0) : vdot u w = 0 := by
  induction u generalizing w with
  | nil => simp [vdot]
  | cons x t ih =>
      cases w with
      | nil => simp [vdot]
      | cons y s =>
          simp only [vdot, List.zipWith_cons_cons, List.sum_cons]
          rw [h x (List.mem_cons_self x t), zero_mul, zero_add]
          exact ih s (fun z hz => h z (List.mem_cons_of_mem x hz))

lemma vdot_right_zero (w u : List ℚ) (h : ∀ x ∈ u, x = 0) : vdot w u = 0 := by
  induction u generalizing w with
  | nil => cases w <;> simp [vdot]
  | cons x t ih =>
      cases w with
      | nil => simp [vdot]
      | cons y s =>
          simp only [vdot, List.zipWith_cons_cons, List.sum_cons]
          rw [h x (List.mem_cons_self x t), mul_zero, zero_add]
          exact ih s (fun z hz => h z (List.mem_cons_of_mem x hz))

lemma vnormalize_error_all_zero (sqrtQ : ℚ → ℚ) (u : List ℚ)
    (hsqrt : ∀ x : ℚ, 0 ≤ x → sqrtQ x = 0 → x = 0)
    (h : vnormalize sqrtQ u = Except.error ()) : ∀ x ∈ u, x = 0 := by
  simp only [vnormalize] at h
  split_ifs at h with hz
  exact vdot_self_zero u (hsqrt _ (vdot_self_nonneg u) hz)

/-- Claim C10: for a negative-eigenvalue mode where either finite-difference
gradient change cannot be normalized (vnormalize reports BadNorm, i.e. its
norm is zero), the classifier substitutes the raw (all-zero) vector, the
resulting dot product is 0, and — whenever both thresholds are strictly
positive — the mode falls into the ambiguous branch and is classified
Imaginary (with warning), never Rotational. -/
theorem C10_badnorm_ambiguous (sqrtQ : ℚ → ℚ)
    (rotThreshold imagThreshold e a : ℚ) (u v : List ℚ)
    (hsqrt : ∀ x : ℚ, 0 ≤ x → sqrtQ x = 0 → x = 0)
    (hrot : 0 < rotThreshold) (himag : 0 < imagThreshold)
    (herr : vnormalize sqrtQ u = Except.error () ∨
      vnormalize sqrtQ v = Except.error ()) :
    vdot (normalizeOrRaw sqrtQ u) (normalizeOrRaw sqrtQ v) = 0 ∧
    classifyNegativeMode sqrtQ rotThreshold imagThreshold ⟨e, a, u, v⟩ =
      some (ModeKind.Imaginary, true) := by
  have hdot : vdot (normalizeOrRaw sqrtQ u) (normalizeOrRaw sqrtQ v) = 0 := by
    rcases herr with h | h
    · have hz := vnormalize_error_all_zero sqrtQ u hsqrt h
      have hraw : normalizeOrRaw sqrtQ u = u := by
        simp [normalizeOrRaw, h]
      rw [hraw]
      exact vdot_left_zero u _ hz
    · have hz := vnormalize_error_all_zero sqrtQ v hsqrt h
      have hraw : normalizeOrRaw sqrtQ v = v := by
        simp [normalizeOrRaw, h]
      rw [hraw]
      exact vdot_right_zero _ v hz
  refine ⟨hdot, ?_⟩
  simp only [classifyNegativeMode, classifyDot, hdot]
  rw [if_neg (by norm_num), if_neg (by linarith), if_neg (by linarith)]

/-- Claim C10, witness: with gradient changes (0, 0) and (3, 4) and
thresholds 0.8, the first vector cannot be normalized, the dot product is
0, and the mode is classified Imaginary with a warning. -/
theorem C10_badnorm_ambiguous_witness :
    vdot (normalizeOrRaw (fun x => if x = 0 then 0 else 1) [0, 0])
        (normalizeOrRaw (fun x => if x = 0 then 0 else 1) [3, 4]) = 0 ∧
    classifyNegativeMode (fun x => if x = 0 then 0 else 1) (8/10) (8/10)
        ⟨-2, 0, [0, 0], [3, 4]⟩ = some (ModeKind.Imaginary, true) :=
  C10_badnorm_ambiguous (fun x => if x = 0 then 0 else 1) (8/10) (8/10)
    (-2) 0 [0, 0] [3, 4]
    (fun x _ h => by
      by_cases hx : x = 0
      · exact hx
      · simp only [if_neg hx] at h
        exact absurd h one_ne_zero)
    (by norm_num) (by norm_num)
    (Or.inl (by norm_num [vnormalize, vdot]))

lemma collectFrom_ok {E B : Type} (f : ℕ → Except E B) (d : B) :
    ∀ (n i : ℕ) (l : List B), collectFrom f i n = Except.ok l →
      l.length = n ∧ ∀ k, k < n → f (i + k) = Except.ok (l.getD k d) := by
  intro n
  induction n with
  | zero =>
      intro i l h
      simp only [collectFrom] at h
      obtain rfl := Except.ok.inj h
      exact ⟨rfl, fun k hk => absurd hk (Nat.not_lt_zero k)⟩
  | succ n ih =>
      intro i l h
      simp only [collectFrom] at h
      cases hf : f i with
      | error e => rw [hf] at h; cases h
      | ok x =>
          simp only [hf] at h
          cases hc : collectFrom f (i + 1) n with
          | error e => simp only [hc] at h; cases h
          | ok xs =>
              simp only [hc] at h
              obtain rfl := Except.ok.inj h
              obtain ⟨hlen, hall⟩ := ih (i + 1) xs hc
              refine ⟨by simp [hlen], fun k hk => ?_⟩
              cases k with
              | zero => simpa using hf
              | succ k =>
                  have heq : i + (k + 1) = (i + 1) + k := by omega
                  rw [heq, List.getD_cons_succ]
                  exact hall k (by omega)

lemma collect_ok {E B : Type} (f : ℕ → Except E B) (d : B) (n : ℕ) (l : List B)
    (h : collect f n = Except.ok l) :
    l.length = n ∧ ∀ k, k < n → f k = Except.ok (l.getD k d) := by
  obtain ⟨hlen, hall⟩ := collectFrom_ok f d n 0 l h
  exact ⟨hlen, fun k hk => by simpa using hall k hk⟩

lemma foldl_mark_le (p : ℕ → Bool) (B : ℕ) :
    ∀ (L : List ℕ) (acc : ℕ), acc ≤ B → (∀ i ∈ L, i + 1 ≤ B) →
      L.foldl (fun a i => if p i then i + 1 else a) acc ≤ B := by
  intro L
  induction L with
  | nil => intro acc h _; exact h
  | cons x t ih =>
      intro acc hacc hall
      simp only [List.foldl_cons]
      apply ih
      · split_ifs
        · exact hall x (List.mem_cons_self x t)
        · exact hacc
      · exact fun i hi => hall i (List.mem_cons_of_mem x hi)

lemma foldl_mark_gt (p : ℕ → Bool) :
    ∀ (n acc i : ℕ), i < n → p i = true →
      i < (List.range n).foldl (fun a j => if p j then j + 1 else a) acc := by
  intro n
  induction n with
  | zero => intro acc i hi _; exact absurd hi (Nat.not_lt_zero i)
  | succ n ih =>
      intro acc i hi hp
      rw [List.range_succ, List.foldl_append, List.foldl_cons, List.foldl_nil]
      by_cases hn : i = n
      · subst hn
        rw [if_pos hp]
        omega
      · have hi' : i < n := by omega
        have hrec := ih acc i hi' hp
        split_ifs with hpn
        · omega
        · exact hrec

lemma stopIndexOf_le (modes : List Mode) : stopIndexOf modes ≤ modes.length :=
  List.findIdx_le_length _

lemma zeroIndexOf_le (modes : List Mode) : zeroIndexOf modes ≤ modes.length :=
  List.findIdx_le_length _

lemma tEnd_le_length (modes : List Mode) : tEndOf modes ≤ modes.length := by
  apply foldl_mark_le _ modes.length _ _ (zeroIndexOf_le modes)
  intro i hi
  have h1 : i < stopIndexOf modes := List.mem_range.mp hi
  have h2 := stopIndexOf_le modes
  omega

lemma isTrans_lt_tEnd (modes : List Mode) (i : ℕ)
    (h : isTranslationalAt modes i = true) : i < tEndOf modes := by
  have hstop : i < stopIndexOf modes := by
    have := (Bool.and_eq_true _ _).mp h
    exact of_decide_eq_true this.1
  exact foldl_mark_gt _ (stopIndexOf modes) (zeroIndexOf modes) i hstop h

lemma kindsScan_getElem (modes : List Mode) (i : ℕ) (h : i < modes.length) :
    (kindsScan modes)[i]? =
      some (if isTranslationalAt modes i then some ModeKind.Translational else none) := by
  rw [kindsScan, List.getElem?_map, List.getElem?_range h]
  rfl

lemma kindsScan_length (modes : List Mode) : (kindsScan modes).length = modes.length := by
  simp [kindsScan]

lemma kindsA_getD_lt (modes : List Mode) (i : ℕ) (hi : i < tEndOf modes) :
    (kindsAfterResize modes).getD i none =
      if isTranslationalAt modes i then some ModeKind.Translational else none := by
  have hlen : i < modes.length := lt_of_lt_of_le hi (tEnd_le_length modes)
  have htake : ((kindsScan modes).take (tEndOf modes)).length = tEndOf modes := by
    rw [List.length_take, kindsScan_length]
    exact min_eq_left (tEnd_le_length modes)
  rw [kindsAfterResize, List.getD_eq_getElem?_getD, List.getElem?_append,
    if_pos (by rw [htake]; exact hi), List.getElem?_take, if_pos hi,
    kindsScan_getElem modes i hlen]
  rfl

lemma kindsA_getD_ge (modes : List Mode) (i : ℕ) (hge : tEndOf modes ≤ i)
    (hlt : i < modes.length) :
    (kindsAfterResize modes).getD i none = some ModeKind.Vibrational := by
  have htake : ((kindsScan modes).take (tEndOf modes)).length = tEndOf modes := by
    rw [List.length_take, kindsScan_length]
    exact min_eq_left (tEnd_le_length modes)
  rw [kindsAfterResize, List.getD_eq_getElem?_getD, List.getElem?_append,
    if_neg (by omega), htake]
  have hrep : i - tEndOf modes < modes.length - tEndOf modes := by omega
  rw [List.getElem?_replicate, if_pos hrep]
  rfl

lemma classifyDot_ne_translational (rotT imagT dot : ℚ) (kw : ModeKind × Bool)
    (h : classifyDot rotT imagT dot = some kw) : kw.1 ≠ ModeKind.Translational := by
  simp only [classifyDot] at h
  split_ifs at h <;>
    · obtain rfl := Option.some.inj h
      simp

/-- Claim C8: the search labels a mode Translational exactly when its
acousticness is at least 0.95 among the modes scanned up to the frequency
cutoff (`isTranslationalAt`); it fails with the too-many-translational
error whenever more than three modes meet that criterion; and on success
at most three meet it and exactly those are labeled Translational in the
returned classification. -/
theorem C8_translational_limit (sqrtQ : ℚ → ℚ)
    (rotThreshold imagThreshold : ℚ) (modes : List Mode) :
    (3 < transCount modes →
      perform_acoustic_search sqrtQ rotThreshold imagThreshold modes =
        Except.error AcErr.tooManyTranslational) ∧
    (∀ kinds,
      perform_acoustic_search sqrtQ rotThreshold imagThreshold modes =
        Except.ok kinds →
      transCount modes ≤ 3 ∧ kinds.length = modes.length ∧
      ∀ i, i < modes.length →
        (kinds.getD i ModeKind.Vibrational = ModeKind.Translational ↔
          isTranslationalAt modes i = true)) := by
  constructor
  · intro h
    simp [perform_acoustic_search, h]
  · intro kinds h
    simp only [perform_acoustic_search] at h
    by_cases hcnt : 3 < transCount modes
    · rw [if_pos hcnt] at h
      cases h
    · rw [if_neg hcnt] at h
      cases hB : collect
          (fun i =>
            match (kindsAfterResize modes).getD i none with
            | some k => Except.ok (some k)
            | none =>
                if i < zeroIndexOf modes then
                  match classifyNegativeMode sqrtQ rotThreshold
                      imagThreshold (modes.getD i default) with
                  | none => Except.error AcErr.badDot
                  | some kw => Except.ok (some kw.1)
                else Except.ok none)
          modes.length with
      | error e => rw [hB] at h; cases h
      | ok kindsB =>
          simp only [hB] at h
          obtain ⟨hlenB, hallB⟩ := collect_ok _ (none : Option ModeKind) _ _ hB
          obtain ⟨hlen, hall⟩ := collect_ok _ ModeKind.Vibrational _ _ h
          refine ⟨by omega, hlen, fun i hi => ?_⟩
          have h3 := hall i (by omega)
          have h2 := hallB i (by omega)
          simp only [] at h2 h3
          constructor
          · intro hT
            cases hKB : kindsB.getD i none with
            | none => rw [hKB] at h3; cases h3
            | some k =>
                rw [hKB] at h3
                have hk : k = ModeKind.Translational := by
                  rw [Except.ok.inj h3, hT]
                subst hk
                cases hKA : (kindsAfterResize modes).getD i none with
                | some k2 =>
                    simp only [hKA] at h2
                    have hk2 : k2 = ModeKind.Translational := by
                      have h5 := Except.ok.inj h2
                      rw [hKB] at h5
                      exact Option.some.inj h5
                    by_contra hnT
                    by_cases hlt : i < tEndOf modes
                    · rw [kindsA_getD_lt modes i hlt,
                        if_neg (by simp [hnT])] at hKA
                      cases hKA
                    · rw [kindsA_getD_ge modes i (by omega) hi] at hKA
                      rw [hk2] at hKA
                      cases Option.some.inj hKA
                | none =>
                    simp only [hKA] at h2
                    split_ifs at h2 with hzi
                    · cases hcl : classifyNegativeMode sqrtQ rotThreshold
                          imagThreshold (modes.getD i default) with
                      | none => rw [hcl] at h2; cases h2
                      | some kw =>
                          rw [hcl] at h2
                          have : kw.1 = ModeKind.Translational := by
                            have h4 := Except.ok.inj h2
                            rw [hKB] at h4
                            exact Option.some.inj h4
                          exact absurd this
                            (classifyDot_ne_translational _ _ _ kw hcl)
                    · rw [hKB] at h2
                      cases Except.ok.inj h2
          · intro hT
            have hlt := isTrans_lt_tEnd modes i hT
            have hKA : (kindsAfterResize modes).getD i none =
                some ModeKind.Translational := by
              rw [kindsA_getD_lt modes i hlt, if_pos hT]
            simp only [hKA] at h2
            rw [← Except.ok.inj h2] at h3
            exact (Except.ok.inj h3).symm

/-- Claim C8, witness: a concrete three-mode spectrum whose first two modes
are translational; the search succeeds, labels exactly those two
Translational, and the error branch is exercised on a five-mode spectrum
with four translational modes. -/
theorem C8_translational_limit_witness :
    perform_acoustic_search (fun x => x) (8/10) (8/10)
        [⟨1, 1, [], []⟩, ⟨2, 96/100, [], []⟩, ⟨3, 0, [], []⟩] =
      Except.ok [ModeKind.Translational, ModeKind.Translational,
        ModeKind.Vibrational] ∧
    ([ModeKind.Translational, ModeKind.Translational,
        ModeKind.Vibrational].getD 1 ModeKind.Vibrational =
        ModeKind.Translational ↔
      isTranslationalAt
        [⟨1, 1, [], []⟩, ⟨2, 96/100, [], []⟩, ⟨3, 0, [], []⟩] 1 = true) ∧
    perform_acoustic_search (fun x => x) (8/10) (8/10)
        [⟨1, 1, [], []⟩, ⟨2, 1, [], []⟩, ⟨3, 1, [], []⟩, ⟨4, 1, [], []⟩,
          ⟨5, 0, [], []⟩] =
      Except.error AcErr.tooManyTranslational := by
  have hok : perform_acoustic_search (fun x => x) (8/10) (8/10)
      [⟨1, 1, [], []⟩, ⟨2, 96/100, [], []⟩, ⟨3, 0, [], []⟩] =
      Except.ok [ModeKind.Translational, ModeKind.Translational,
        ModeKind.Vibrational] := by
    norm_num [perform_acoustic_search, transCount, kindsScan, kindsAfterResize,
      tEndOf, stopIndexOf, zeroIndexOf, isTranslationalAt, collect, collectFrom,
      List.findIdx, List.findIdx.go, List.range_succ, List.getD]
    intro hh
    simp at hh
  refine ⟨hok, ?_, ?_⟩
  · exact (C8_translational_limit (fun x => x) (8/10) (8/10)
      [⟨1, 1, [], []⟩, ⟨2, 96/100, [], []⟩, ⟨3, 0, [], []⟩]).2 _ hok |>.2.2 1
      (by norm_num)
  · apply (C8_translational_limit (fun x => x) (8/10) (8/10)
      [⟨1, 1, [], []⟩, ⟨2, 1, [], []⟩, ⟨3, 1, [], []⟩, ⟨4, 1, [], []⟩,
        ⟨5, 0, [], []⟩]).1
    norm_num [transCount, kindsScan, isTranslationalAt, stopIndexOf,
      List.findIdx, List.findIdx.go, List.range_succ, List.getD]

end Rsp2
